import Mathlib

/-!
Shallow embedding of the aztec-cca bid lifecycle engine.

Machine integers are modelled as `Nat`: `U256` values are natural numbers;
subtractions in the embedded code paths are all guarded against underflow
and are therefore exact, while the two `U256` additions that can exceed
the 256-bit range (`up = down + spacing` in the tick aligner and the
running purchase total) are taken modulo `2^256`, as the release-mode
`U256` addition wraps (a debug build panics there instead, so on those
inputs the source never produces the unbounded sum either way). The `u8`
attempts counter keeps the source's `saturating_add` explicitly.
Network-dependent operations (bid submission, on-chain tick reads) are
parameterised by explicit oracles.
-/

namespace AztecCca

/-! ## Data model (src/auction.rs, src/config.rs) -/

/-- The modulus of 256-bit machine integers. -/
def U256_MOD : Nat := 2 ^ 256

/-- Embeds the `U256` addition: wraps modulo `2^256` on overflow. -/
def u256_wrapping_add (a b : Nat) : Nat := (a + b) % U256_MOD

/-- Embeds `AuctionParams` from src/auction.rs: the immutable snapshot of auction
parameters loaded once at start-up. -/
structure AuctionParams where
  contributor_period_end_block : Nat
  max_purchase_limit : Nat
  floor_price : Nat
  tick_spacing : Nat
  max_bid_price : Nat
  end_block : Nat
  total_purchased : Nat
  has_any_token : Bool
deriving Repr, DecidableEq

/-- Embeds `BidParams` from src/config.rs: one planned bid. Addresses are
modelled as `Nat`. -/
structure BidParams where
  max_bid : Nat
  amount : Nat
  owner : Nat
deriving Repr, DecidableEq

/-! ## Tick aligner (src/ticks.rs) -/

/-- Embeds `align_price_to_tick` from src/ticks.rs, translated clause by clause:

```rust
if price >= cap { return cap; }
if price <= floor { return floor; }
let offset = price - floor;
let rem = offset % spacing;
if rem.is_zero() { return price.min(cap); }
let down = price - rem;
let up = down + spacing;
let choose_up = rem > spacing - rem;
let candidate = if choose_up { up } else { down };
candidate.min(cap)
```

The subtractions are guarded (`floor < price`, `rem ≤ offset ≤ price`,
`rem < spacing`) and hence exact; the sole unguarded operation is the
`U256` addition `down + spacing`, which wraps modulo `2^256`. -/
def align_price_to_tick (price : Nat) (params : AuctionParams) : Nat :=
  let floor := params.floor_price
  let spacing := params.tick_spacing
  let cap := params.max_bid_price
  if price ≥ cap then cap
  else if price ≤ floor then floor
  else
    let offset := price - floor
    let rem := offset % spacing
    if rem = 0 then min price cap
    else
      let down := price - rem
      let up := u256_wrapping_add down spacing
      let choose_up := rem > spacing - rem
      let candidate := if choose_up then up else down
      min candidate cap

section TickLemmas

/-- Branch description of the aligner, with the `let`s inlined. -/
lemma align_eq (price : Nat) (params : AuctionParams) :
    align_price_to_tick price params =
      if params.max_bid_price ≤ price then params.max_bid_price
      else if price ≤ params.floor_price then params.floor_price
      else if (price - params.floor_price) % params.tick_spacing = 0 then
        min price params.max_bid_price
      else
        min
          (if params.tick_spacing - (price - params.floor_price) % params.tick_spacing <
              (price - params.floor_price) % params.tick_spacing then
            u256_wrapping_add
              (price - (price - params.floor_price) % params.tick_spacing)
              params.tick_spacing
          else price - (price - params.floor_price) % params.tick_spacing)
          params.max_bid_price := by
  simp only [align_price_to_tick, ge_iff_le, gt_iff_lt]

/-- The aligner's output is in `[floor, cap]`, and is on the grid unless it
is the (possibly off-grid) cap — provided the upward rounding cannot wrap
past `2^256` (`cap + spacing ≤ 2^256`). -/
lemma align_mem (price : Nat) (params : AuctionParams)
    (hs : 0 < params.tick_spacing)
    (hfc : params.floor_price ≤ params.max_bid_price)
    (hov : params.max_bid_price + params.tick_spacing ≤ U256_MOD) :
    params.floor_price ≤ align_price_to_tick price params ∧
    align_price_to_tick price params ≤ params.max_bid_price ∧
    ((align_price_to_tick price params - params.floor_price) % params.tick_spacing = 0 ∨
      align_price_to_tick price params = params.max_bid_price) := by
  obtain ⟨cpe, mpl, floor, spacing, cap, eb, tp, hat⟩ := params
  rw [align_eq]
  dsimp only at hs hfc hov ⊢
  by_cases h1 : cap ≤ price
  · simp only [h1, if_true]
    exact ⟨hfc, le_refl _, Or.inr trivial⟩
  · simp only [h1, if_false]
    by_cases h2 : price ≤ floor
    · simp only [h2, if_true]
      refine ⟨le_refl _, hfc, Or.inl ?_⟩
      simp
    · simp only [h2, if_false]
      push_neg at h1 h2
      have hdm : spacing * ((price - floor) / spacing) + (price - floor) % spacing
          = price - floor := Nat.div_add_mod _ _
      have hrl : (price - floor) % spacing < spacing := Nat.mod_lt _ hs
      by_cases h3 : (price - floor) % spacing = 0
      · simp only [h3, if_true]
        have hm : min price cap = price := by omega
        rw [hm]
        exact ⟨le_of_lt h2, le_of_lt h1, Or.inl h3⟩
      · simp only [h3, if_false]
        generalize hrem : (price - floor) % spacing = rem at *
        generalize hq : (price - floor) / spacing = q at *
        have hmul : (spacing * q) % spacing = 0 := Nat.mul_mod_right _ _
        have hmul1 : (spacing * (q + 1)) % spacing = 0 := Nat.mul_mod_right _ _
        have hsucc : spacing * (q + 1) = spacing * q + spacing := Nat.mul_succ _ _
        by_cases h4 : spacing - rem < rem
        · simp only [h4, if_true]
          have hupw : u256_wrapping_add (price - rem) spacing =
              price - rem + spacing := by
            unfold u256_wrapping_add
            exact Nat.mod_eq_of_lt (by omega)
          rw [hupw]
          have hup : price - rem + spacing - floor = spacing * (q + 1) := by omega
          refine ⟨?_, ?_, ?_⟩
          · omega
          · omega
          · by_cases h5 : price - rem + spacing ≤ cap
            · left
              have hm : min (price - rem + spacing) cap = price - rem + spacing := by
                omega
              rw [hm, hup]
              exact hmul1
            · right
              omega
        · simp only [h4, if_false]
          have hdown : price - rem - floor = spacing * q := by omega
          refine ⟨?_, ?_, ?_⟩
          · omega
          · omega
          · left
            have hm : min (price - rem) cap = price - rem := by omega
            rw [hm, hdown]
            exact hmul

/-- Points of `[floor, cap]` that are on the grid (or are the cap itself)
are fixed by the aligner. -/
lemma align_fixed (x : Nat) (params : AuctionParams)
    (hs : 0 < params.tick_spacing)
    (hfc : params.floor_price ≤ params.max_bid_price)
    (hlo : params.floor_price ≤ x) (hhi : x ≤ params.max_bid_price)
    (hgrid : (x - params.floor_price) % params.tick_spacing = 0 ∨
      x = params.max_bid_price) :
    align_price_to_tick x params = x := by
  obtain ⟨cpe, mpl, floor, spacing, cap, eb, tp, hat⟩ := params
  rw [align_eq]
  dsimp only at hs hfc hlo hhi hgrid ⊢
  by_cases h1 : cap ≤ x
  · simp only [h1, if_true]
    omega
  · simp only [h1, if_false]
    by_cases h2 : x ≤ floor
    · simp only [h2, if_true]
      omega
    · simp only [h2, if_false]
      rcases hgrid with hg | hg
      · simp only [hg, if_true]
        omega
      · omega

end TickLemmas

/-- Modelled from the spec: `AuctionParams::ensure_tick_aligned` (called from
`PreflightValidator::ensure_tick_alignment` in src/validate.rs) is not among
the sources; spec §4.2 states the preflight grid condition as
`(max_bid - floor) mod spacing == 0`. -/
def tick_aligned (params : AuctionParams) (price : Nat) : Prop :=
  (price - params.floor_price) % params.tick_spacing = 0

instance (params : AuctionParams) (price : Nat) : Decidable (tick_aligned params price) := by
  unfold tick_aligned
  exact inferInstance

/-- Example parameters used by the spec's concrete tick-aligner cases:
floor 1000, spacing 100, cap 10000. -/
def exParams : AuctionParams :=
  { contributor_period_end_block := 0
    max_purchase_limit := 0
    floor_price := 1000
    tick_spacing := 100
    max_bid_price := 10000
    end_block := 0
    total_purchased := 0
    has_any_token := true }

/-- Example parameters whose cap 10050 is off the grid anchored at
floor 1000 with spacing 100. -/
def exParamsOffCap : AuctionParams :=
  { contributor_period_end_block := 0
    max_purchase_limit := 0
    floor_price := 1000
    tick_spacing := 100
    max_bid_price := 10050
    end_block := 0
    total_purchased := 0
    has_any_token := true }

/-- Wrap-corner parameters: floor 150, spacing `2^255 - 50`, cap
`2^256 - 1` (all representable `U256` values, with `spacing > 0` and
`floor ≤ cap`). -/
def wParams : AuctionParams :=
  { contributor_period_end_block := 0
    max_purchase_limit := 0
    floor_price := 150
    tick_spacing := 2 ^ 255 - 50
    max_bid_price := 2 ^ 256 - 1
    end_block := 0
    total_purchased := 0
    has_any_token := true }

/-- Wrap-corner price `2^255 + 2^254 + 100`: strictly between floor and
cap, off-grid with `rem = 2^254 > spacing - rem`, and
`down + spacing = 2^256 + 50` overflows `U256`. -/
def wPrice : Nat := 2 ^ 255 + 2 ^ 254 + 100

/-- C3 counterexample: at the wrap corner the claim's branch applies
(`floor < price < cap`, `rem ≠ 0`, `up` chosen) and the claim asserts the
unbounded `min (down + spacing) cap = cap`, but the `U256` addition wraps
and the source returns 50. -/
theorem align_price_to_tick_wrap_cex :
    0 < wParams.tick_spacing ∧
    wParams.floor_price ≤ wParams.max_bid_price ∧
    wParams.floor_price < wPrice ∧
    wPrice < wParams.max_bid_price ∧
    (wPrice - wParams.floor_price) % wParams.tick_spacing ≠ 0 ∧
    (wPrice - wParams.floor_price) % wParams.tick_spacing >
      wParams.tick_spacing -
        (wPrice - wParams.floor_price) % wParams.tick_spacing ∧
    align_price_to_tick wPrice wParams = 50 ∧
    min
      (wPrice - (wPrice - wParams.floor_price) % wParams.tick_spacing +
        wParams.tick_spacing)
      wParams.max_bid_price = wParams.max_bid_price ∧
    align_price_to_tick wPrice wParams ≠
      min
        (wPrice - (wPrice - wParams.floor_price) % wParams.tick_spacing +
          wParams.tick_spacing)
        wParams.max_bid_price := by
  decide

/-- C3 (amended): with `tick_spacing > 0` and `floor_price ≤ max_bid_price`,
`align_price_to_tick` returns the cap for prices at or above it, the floor
for prices at or below it, and otherwise keeps grid prices and snaps other
prices to the nearer of `down = price - rem` and
`up = (down + spacing) mod 2^256` — the `U256` addition wraps on overflow —
(choosing `up` exactly when `rem > spacing - rem`, so ties round down),
clamped to the cap; and on floor 1000 / spacing 100 / cap 10000 it maps
1050 ↦ 1000, 1051 ↦ 1100, 10500 ↦ 10000, 500 ↦ 1000. -/
theorem align_price_to_tick_spec :
    (∀ (price : Nat) (params : AuctionParams),
      0 < params.tick_spacing → params.floor_price ≤ params.max_bid_price →
      (params.max_bid_price ≤ price →
        align_price_to_tick price params = params.max_bid_price) ∧
      (price ≤ params.floor_price →
        align_price_to_tick price params = params.floor_price) ∧
      (params.floor_price < price → price < params.max_bid_price →
        ((price - params.floor_price) % params.tick_spacing = 0 →
          align_price_to_tick price params = price) ∧
        ((price - params.floor_price) % params.tick_spacing ≠ 0 →
          align_price_to_tick price params =
            min
              (if (price - params.floor_price) % params.tick_spacing >
                  params.tick_spacing -
                    (price - params.floor_price) % params.tick_spacing then
                u256_wrapping_add
                  (price - (price - params.floor_price) % params.tick_spacing)
                  params.tick_spacing
              else price - (price - params.floor_price) % params.tick_spacing)
              params.max_bid_price))) ∧
    align_price_to_tick 1050 exParams = 1000 ∧
    align_price_to_tick 1051 exParams = 1100 ∧
    align_price_to_tick 10500 exParams = 10000 ∧
    align_price_to_tick 500 exParams = 1000 := by
  refine ⟨?_, by decide, by decide, by decide, by decide⟩
  intro price params hs hfc
  obtain ⟨cpe, mpl, floor, spacing, cap, eb, tp, hat⟩ := params
  rw [align_eq]
  dsimp only at hs hfc ⊢
  refine ⟨?_, ?_, ?_⟩
  · intro h1
    simp only [h1, if_true]
  · intro h2
    by_cases h1 : cap ≤ price
    · simp only [h1, if_true]
      omega
    · simp only [h1, if_false, h2, if_true]
  · intro hf hc
    have h1 : ¬ cap ≤ price := by omega
    have h2 : ¬ price ≤ floor := by omega
    simp only [h1, if_false, h2, if_false]
    constructor
    · intro h3
      simp only [h3, if_true]
      omega
    · intro h3
      simp only [h3, if_false, gt_iff_lt]

/-- C3 witness: the theorem applied at price 10500 with the example
parameters. -/
theorem align_price_to_tick_spec_witness :
    align_price_to_tick 10500 exParams = exParams.max_bid_price :=
  (align_price_to_tick_spec.1 10500 exParams (by decide) (by decide)).1 (by decide)

/-- C9 counterexample: at the wrap corner the aligner returns 50, which
lies below the floor; realigning it yields the floor 150, so idempotence
fails on the source even though `spacing > 0` and `floor ≤ cap` hold. -/
theorem align_idem_wrap_cex :
    0 < wParams.tick_spacing ∧
    wParams.floor_price ≤ wParams.max_bid_price ∧
    align_price_to_tick wPrice wParams = 50 ∧
    align_price_to_tick (align_price_to_tick wPrice wParams) wParams = 150 ∧
    align_price_to_tick (align_price_to_tick wPrice wParams) wParams ≠
      align_price_to_tick wPrice wParams := by
  decide

/-- C9 (amended): with `tick_spacing > 0`, `floor_price ≤ max_bid_price`,
and `max_bid_price + tick_spacing ≤ 2^256` — which precludes the upward
rounding from wrapping past `U256` — `align_price_to_tick` is
idempotent. -/
theorem align_price_to_tick_idem (price : Nat) (params : AuctionParams)
    (hs : 0 < params.tick_spacing)
    (hfc : params.floor_price ≤ params.max_bid_price)
    (hov : params.max_bid_price + params.tick_spacing ≤ U256_MOD) :
    align_price_to_tick (align_price_to_tick price params) params =
      align_price_to_tick price params := by
  obtain ⟨h1, h2, h3⟩ := align_mem price params hs hfc hov
  exact align_fixed _ params hs hfc h1 h2 h3

/-- C9 witness: idempotence at price 1051 with the example parameters. -/
theorem align_price_to_tick_idem_witness :
    align_price_to_tick (align_price_to_tick 1051 exParams) exParams =
      align_price_to_tick 1051 exParams :=
  align_price_to_tick_idem 1051 exParams (by decide) (by decide) (by decide)

/-- C10 counterexample: at the wrap corner (`spacing > 0`, `floor ≤ cap`)
the aligner's result 50 falls below `floor_price = 150`, violating the
claimed range `[floor_price, max_bid_price]`. -/
theorem align_range_wrap_cex :
    0 < wParams.tick_spacing ∧
    wParams.floor_price ≤ wParams.max_bid_price ∧
    align_price_to_tick wPrice wParams < wParams.floor_price := by
  decide

/-- C10 (amended): with `tick_spacing > 0`, `floor_price ≤ max_bid_price`,
and `max_bid_price + tick_spacing ≤ 2^256` (no wrap in the upward
rounding), the aligner's result lies in `[floor_price, max_bid_price]`; it
satisfies the preflight grid condition exactly when it is not an off-grid
cap; and when the cap is off the grid, every price at or above the cap is
sent to the (unaligned) cap. -/
theorem align_price_to_tick_range_grid (price : Nat) (params : AuctionParams)
    (hs : 0 < params.tick_spacing)
    (hfc : params.floor_price ≤ params.max_bid_price)
    (hov : params.max_bid_price + params.tick_spacing ≤ U256_MOD) :
    params.floor_price ≤ align_price_to_tick price params ∧
    align_price_to_tick price params ≤ params.max_bid_price ∧
    (tick_aligned params (align_price_to_tick price params) ↔
      ¬(align_price_to_tick price params = params.max_bid_price ∧
        ¬ tick_aligned params params.max_bid_price)) ∧
    (¬ tick_aligned params params.max_bid_price → params.max_bid_price ≤ price →
      align_price_to_tick price params = params.max_bid_price ∧
      ¬ tick_aligned params (align_price_to_tick price params)) := by
  obtain ⟨h1, h2, h3⟩ := align_mem price params hs hfc hov
  have hiff : tick_aligned params (align_price_to_tick price params) ↔
      ¬(align_price_to_tick price params = params.max_bid_price ∧
        ¬ tick_aligned params params.max_bid_price) := by
    unfold tick_aligned
    constructor
    · rintro hal ⟨hcapeq, hmis⟩
      rw [hcapeq] at hal
      exact hmis hal
    · intro hn
      rcases h3 with hg | hg
      · exact hg
      · by_cases hcapal : (params.max_bid_price - params.floor_price) %
            params.tick_spacing = 0
        · rw [hg]
          exact hcapal
        · exact absurd ⟨hg, hcapal⟩ hn
  refine ⟨h1, h2, hiff, ?_⟩
  intro hmis hcp
  have hcap : align_price_to_tick price params = params.max_bid_price := by
    rw [align_eq]
    simp only [hcp, if_true]
  refine ⟨hcap, ?_⟩
  rw [hcap]
  exact hmis

/-- C10 witness: the theorem applied with the off-grid-cap parameters at
price 20000. -/
theorem align_price_to_tick_range_grid_witness :
    align_price_to_tick 20000 exParamsOffCap = exParamsOffCap.max_bid_price ∧
    ¬ tick_aligned exParamsOffCap (align_price_to_tick 20000 exParamsOffCap) :=
  (align_price_to_tick_range_grid 20000 exParamsOffCap (by decide)
    (by decide) (by decide)).2.2.2 (by decide) (by decide)

/-! ## Bid registry (src/registry.rs)

The `context : BidContext<P>` field of `TrackedBid` is pure network plumbing
(provider handles, signer); it carries no lifecycle state and is omitted.
Transaction hashes (`B256`) are modelled as `Nat`. -/

/-- Embeds `BidState` from src/registry.rs. -/
inductive BidState where
  | Pending
  | Submitted (tx_hash : Nat)
  | Failed (error : String)
deriving Repr, DecidableEq

/-- Embeds `RetryStatus` from src/registry.rs. -/
inductive RetryStatus where
  | Retrying (attempts : Nat)
  | Exhausted
deriving Repr, DecidableEq

/-- Embeds `TrackedBid` from src/registry.rs (without the network context).
`attempts` and `max_retries` are `u8` in the source; they are modelled as
`Nat`, keeping the source's `saturating_add` explicitly. -/
structure TrackedBid where
  bid_params : BidParams
  state : BidState
  attempts : Nat
  max_retries : Nat
  last_error : Option String
deriving Repr, DecidableEq

/-- Embeds `TrackedBid::is_pending`. -/
def TrackedBid.is_pending (b : TrackedBid) : Bool :=
  match b.state with
  | .Pending => true
  | _ => false

/-- Embeds `TrackedBid::is_complete`. -/
def TrackedBid.is_complete (b : TrackedBid) : Bool :=
  match b.state with
  | .Submitted _ => true
  | .Failed _ => true
  | .Pending => false

/-- Embeds `TrackedBid::mark_submitted`: unconditionally sets the state to
`Submitted { tx_hash }` and clears `last_error`. -/
def TrackedBid.mark_submitted (b : TrackedBid) (tx_hash : Nat) : TrackedBid :=
  { b with state := .Submitted tx_hash, last_error := none }

/-- Embeds `TrackedBid::record_failure`: `attempts.saturating_add(1)` (the `u8`
saturates at 255), records the error, and transitions to `Failed` exactly
when the new attempt count reaches `max_retries`. -/
def TrackedBid.record_failure (b : TrackedBid) (error : String) :
    TrackedBid × RetryStatus :=
  let attempts := min (b.attempts + 1) 255
  if attempts ≥ b.max_retries then
    let b := { b with attempts := attempts, last_error := some error,
                      state := BidState.Failed error }
    (b, .Exhausted)
  else
    let b := { b with attempts := attempts, last_error := some error }
    (b, .Retrying attempts)

/-- Embeds `AuctionWindow` from src/registry.rs. -/
structure AuctionWindow where
  contributor_period_end_block : Nat
  end_block : Nat
deriving Repr, DecidableEq

/-- Embeds `BidRegistry` from src/registry.rs. -/
structure BidRegistry where
  bids : List TrackedBid
  window : AuctionWindow
deriving Repr, DecidableEq

/-- Embeds `BidRegistry::all_done`. -/
def BidRegistry.all_done (r : BidRegistry) : Bool :=
  r.bids.all TrackedBid.is_complete

/-- Embeds `BidOutcomeState` from src/registry.rs. -/
inductive BidOutcomeState where
  | Pending (attempts : Nat) (max_retries : Nat) (last_error : Option String)
  | Submitted (tx_hash : Nat)
  | Failed (error : String)
deriving Repr, DecidableEq

/-- Embeds `BidOutcome` from src/registry.rs. -/
structure BidOutcome where
  owner : Nat
  amount : Nat
  state : BidOutcomeState
deriving Repr, DecidableEq

/-- Embeds `BidSummary` from src/registry.rs. -/
structure BidSummary where
  submitted : Nat
  failed : Nat
  pending : Nat
  outcomes : List BidOutcome
deriving Repr, DecidableEq

/-- The per-bid outcome record built inside `BidRegistry::summary`. -/
def TrackedBid.outcome (b : TrackedBid) : BidOutcome :=
  { owner := b.bid_params.owner
    amount := b.bid_params.amount
    state :=
      match b.state with
      | .Pending => .Pending b.attempts b.max_retries b.last_error
      | .Submitted tx_hash => .Submitted tx_hash
      | .Failed error => .Failed error }

/-- Embeds `BidRegistry::summary` from src/registry.rs: the source walks the bids
once, incrementing one of the three counters per bid and collecting one
outcome per bid; the counters are rendered as `countP` over the same
per-state predicates. `summary` reads the registry only (`&self`): in this
embedding it is a pure function of the registry value. -/
def BidRegistry.summary (r : BidRegistry) : BidSummary :=
  { submitted := r.bids.countP fun b =>
      match b.state with
      | .Submitted _ => true
      | _ => false
    failed := r.bids.countP fun b =>
      match b.state with
      | .Failed _ => true
      | _ => false
    pending := r.bids.countP fun b =>
      match b.state with
      | .Pending => true
      | _ => false
    outcomes := r.bids.map TrackedBid.outcome }

/-! ## Phase machine and block consumer (src/blocks.rs)

`submit_bid` performs network work; it is modelled by an oracle giving, for
each bid position in the registry, the outcome of this block's submission
attempt. -/

/-- Embeds `Phase` from src/blocks.rs. -/
inductive Phase where
  | Submit
  | AwaitEnd
  | Exit
  | AwaitClaim
  | Claim
  | Done
deriving Repr, DecidableEq

/-- Position of a phase in the fixed sequence
`Submit → AwaitEnd → Exit → AwaitClaim → Claim → Done`. -/
def Phase.idx : Phase → Nat
  | .Submit => 0
  | .AwaitEnd => 1
  | .Exit => 2
  | .AwaitClaim => 3
  | .Claim => 4
  | .Done => 5

/-- Embeds `PhaseTracker` from src/blocks.rs. -/
structure PhaseTracker where
  current : Phase
  contributor_period_end_block : Nat
  end_block : Nat
deriving Repr, DecidableEq

/-- Embeds `PhaseTracker::new`. -/
def PhaseTracker.new (window : AuctionWindow) : PhaseTracker :=
  { current := .Submit
    contributor_period_end_block := window.contributor_period_end_block
    end_block := window.end_block }

/-- Embeds `PhaseTracker::advance`: the source's `if current != next` guard only
skips the log line; the resulting tracker always has `current = next`. -/
def PhaseTracker.advance (t : PhaseTracker) (next : Phase) : PhaseTracker :=
  { t with current := next }

/-- Embeds `ShutdownReason` from src/blocks.rs. -/
inductive ShutdownReason where
  | AllBidsProcessed
  | AuctionEndedWithPending
deriving Repr, DecidableEq

/-- Embeds `Completion` from src/blocks.rs. -/
inductive Completion where
  | Pending
  | Finished (summary : BidSummary) (reason : ShutdownReason)
deriving Repr, DecidableEq

/-- Whether a completion is `Finished`. -/
def Completion.is_finished : Completion → Bool
  | .Pending => false
  | .Finished _ _ => true

/-- Result of one `submit_bid` network attempt (src/blocks.rs
`submit_bid`): a mined transaction hash, or an error. -/
inductive SubmitOutcome where
  | Ok (tx_hash : Nat)
  | Err (error : String)
deriving Repr, DecidableEq

/-- One iteration of the bid loop in
`BlockConsumer::handle_submit_phase`: bids that are not `Pending` are
skipped (`continue`); a pending bid is marked submitted on success, or has
the failure recorded (the returned `RetryStatus` is only logged). -/
def processBid (outcome : SubmitOutcome) (b : TrackedBid) : TrackedBid :=
  if b.is_pending then
    match outcome with
    | .Ok tx_hash => b.mark_submitted tx_hash
    | .Err error => (b.record_failure error).1
  else b

/-- The whole bid loop of `handle_submit_phase`, processing bids in
registry order; `oracle i` is the submission outcome for the bid at
position `i`. -/
def processBids (oracle : Nat → SubmitOutcome) : Nat → List TrackedBid → List TrackedBid
  | _, [] => []
  | i, b :: rest => processBid (oracle i) b :: processBids oracle (i + 1) rest

/-- Embeds `BlockConsumer` from src/blocks.rs. -/
structure BlockConsumer where
  registry : BidRegistry
  phase : PhaseTracker
deriving Repr, DecidableEq

/-- Embeds `BlockConsumer::new`. -/
def BlockConsumer.new (registry : BidRegistry) : BlockConsumer :=
  { registry := registry, phase := PhaseTracker.new registry.window }

/-- Embeds `BlockConsumer::finish_with_summary`. -/
def BlockConsumer.finish_with_summary (c : BlockConsumer) : Completion :=
  let summary := c.registry.summary
  let reason :=
    if summary.pending = 0 then ShutdownReason.AllBidsProcessed
    else ShutdownReason.AuctionEndedWithPending
  .Finished summary reason

/-- Embeds `BlockConsumer::handle_claim_phase` (placeholder: advances to `Done`
and produces the completion). -/
def BlockConsumer.handle_claim_phase (c : BlockConsumer) (_block : Nat) :
    BlockConsumer × Completion :=
  let c := { c with phase := c.phase.advance .Done }
  (c, c.finish_with_summary)

/-- Embeds `BlockConsumer::handle_await_claim_phase` (placeholder: advances to
`Claim` and falls through). -/
def BlockConsumer.handle_await_claim_phase (c : BlockConsumer) (block : Nat) :
    BlockConsumer × Completion :=
  let c := { c with phase := c.phase.advance .Claim }
  c.handle_claim_phase block

/-- Embeds `BlockConsumer::handle_exit_phase` (placeholder: advances to
`AwaitClaim` and falls through). -/
def BlockConsumer.handle_exit_phase (c : BlockConsumer) (block : Nat) :
    BlockConsumer × Completion :=
  let c := { c with phase := c.phase.advance .AwaitClaim }
  c.handle_await_claim_phase block

/-- Embeds `BlockConsumer::handle_await_end_phase`. -/
def BlockConsumer.handle_await_end_phase (c : BlockConsumer) (block : Nat) :
    BlockConsumer × Completion :=
  if block ≥ c.phase.end_block then
    let c := { c with phase := c.phase.advance .Exit }
    c.handle_exit_phase block
  else
    (c, .Pending)

/-- Embeds `BlockConsumer::handle_submit_phase`. -/
def BlockConsumer.handle_submit_phase (c : BlockConsumer)
    (oracle : Nat → SubmitOutcome) (block : Nat) : BlockConsumer × Completion :=
  if block ≥ c.phase.end_block then
    let c := { c with phase := c.phase.advance .Exit }
    c.handle_exit_phase block
  else
    let bids := processBids oracle 0 c.registry.bids
    let c := { c with registry := { c.registry with bids := bids } }
    if c.registry.all_done then
      let c := { c with phase := c.phase.advance .AwaitEnd }
      c.handle_await_end_phase block
    else
      (c, .Pending)

/-- Embeds `BlockConsumer::handle_block`: blocks before the contributor period end
are ignored; otherwise the current phase's handler runs. -/
def BlockConsumer.handle_block (c : BlockConsumer)
    (oracle : Nat → SubmitOutcome) (block : Nat) : BlockConsumer × Completion :=
  if block < c.phase.contributor_period_end_block then
    (c, .Pending)
  else
    match c.phase.current with
    | .Submit => c.handle_submit_phase oracle block
    | .AwaitEnd => c.handle_await_end_phase block
    | .Exit => c.handle_exit_phase block
    | .AwaitClaim => c.handle_await_claim_phase block
    | .Claim => c.handle_claim_phase block
    | .Done => (c, c.finish_with_summary)

/-- A sequence of delivered blocks: each step carries its block number and
the submission-outcome oracle for that block. -/
def BlockConsumer.run_blocks (c : BlockConsumer) :
    List ((Nat → SubmitOutcome) × Nat) → BlockConsumer
  | [] => c
  | (oracle, block) :: rest =>
      (c.handle_block oracle block).1.run_blocks rest

section PhaseLemmas

lemma handle_claim_phase_done (c : BlockConsumer) (block : Nat) :
    ((c.handle_claim_phase block).1).phase.current = Phase.Done := rfl

lemma handle_await_claim_phase_done (c : BlockConsumer) (block : Nat) :
    ((c.handle_await_claim_phase block).1).phase.current = Phase.Done := rfl

lemma handle_exit_phase_done (c : BlockConsumer) (block : Nat) :
    ((c.handle_exit_phase block).1).phase.current = Phase.Done := rfl

lemma handle_await_end_phase_cases (c : BlockConsumer) (block : Nat) :
    ((c.handle_await_end_phase block).1).phase.current = Phase.Done ∨
      ((c.handle_await_end_phase block).1).phase.current = c.phase.current := by
  unfold BlockConsumer.handle_await_end_phase
  split_ifs
  · exact Or.inl rfl
  · exact Or.inr rfl

lemma handle_submit_phase_cases (c : BlockConsumer) (oracle : Nat → SubmitOutcome)
    (block : Nat) :
    ((c.handle_submit_phase oracle block).1).phase.current = Phase.Done ∨
      ((c.handle_submit_phase oracle block).1).phase.current = Phase.AwaitEnd ∨
      ((c.handle_submit_phase oracle block).1).phase.current = c.phase.current := by
  unfold BlockConsumer.handle_submit_phase
  dsimp only
  split_ifs with h1 h2
  · exact Or.inl rfl
  · rcases handle_await_end_phase_cases
        { registry :=
            { bids := processBids oracle 0 c.registry.bids
              window := c.registry.window }
          phase := c.phase.advance .AwaitEnd } block with h | h
    · exact Or.inl h
    · right
      left
      exact h
  · exact Or.inr (Or.inr rfl)

/-- One `handle_block` call never moves the phase backwards. -/
lemma handle_block_phase_mono (c : BlockConsumer) (oracle : Nat → SubmitOutcome)
    (block : Nat) :
    Phase.idx c.phase.current ≤
      Phase.idx ((c.handle_block oracle block).1).phase.current := by
  unfold BlockConsumer.handle_block
  split_ifs with h0
  · exact le_refl _
  · cases hcur : c.phase.current with
    | Submit =>
        exact Nat.zero_le _
    | AwaitEnd =>
        rcases handle_await_end_phase_cases c block with h | h
        · rw [h]
          decide
        · rw [h, hcur]
    | Exit =>
        rw [handle_exit_phase_done]
        decide
    | AwaitClaim =>
        rw [handle_await_claim_phase_done]
        decide
    | Claim =>
        rw [handle_claim_phase_done]
        decide
    | Done =>
        rw [hcur]

end PhaseLemmas

/-- C4: across any sequence of `handle_block` calls, with arbitrary block
numbers and arbitrary per-block submission outcomes, the phase index along
`Submit → AwaitEnd → Exit → AwaitClaim → Claim → Done` never decreases: the
engine never returns to an earlier phase. -/
theorem handle_block_phase_monotonic (c : BlockConsumer)
    (inputs : List ((Nat → SubmitOutcome) × Nat)) :
    Phase.idx c.phase.current ≤
      Phase.idx (c.run_blocks inputs).phase.current := by
  induction inputs generalizing c with
  | nil => exact le_refl _
  | cons p rest ih =>
      obtain ⟨oracle, block⟩ := p
      calc Phase.idx c.phase.current
          ≤ Phase.idx ((c.handle_block oracle block).1).phase.current :=
            handle_block_phase_mono c oracle block
        _ ≤ Phase.idx (((c.handle_block oracle block).1).run_blocks rest).phase.current :=
            ih _

/-- The three per-state counters partition any list of tracked bids. -/
lemma countP_states_partition (l : List TrackedBid) :
    (l.countP fun b => match b.state with | .Submitted _ => true | _ => false) +
      (l.countP fun b => match b.state with | .Failed _ => true | _ => false) +
      (l.countP fun b => match b.state with | .Pending => true | _ => false) =
      l.length := by
  induction l with
  | nil => rfl
  | cons b rest ih =>
      simp only [List.countP_cons, List.length_cons]
      cases hb : b.state <;> simp [hb] <;> omega

/-- C7: for every registry, `summary()`'s counts satisfy
`submitted + failed + pending = number of bids`, with exactly one per-bid
outcome per bid. In this embedding `summary` is a pure function of the
registry value, so it cannot mutate any bid's state, attempts or
last_error. -/
theorem summary_partitions (r : BidRegistry) :
    r.summary.submitted + r.summary.failed + r.summary.pending =
      r.bids.length ∧
    r.summary.outcomes.length = r.bids.length := by
  constructor
  · exact countP_states_partition r.bids
  · simp [BidRegistry.summary]

/-- Example tracked bid: pending, no attempts yet, three retries allowed. -/
def bidEx : TrackedBid :=
  { bid_params := { max_bid := 2000, amount := 10, owner := 1 }
    state := .Pending
    attempts := 0
    max_retries := 3
    last_error := none }

/-- Example tracked bid in the terminal `Failed` state. -/
def bidFailedEx : TrackedBid :=
  { bid_params := { max_bid := 2000, amount := 10, owner := 1 }
    state := .Failed "boom"
    attempts := 3
    max_retries := 3
    last_error := some "boom" }

/-- C5: for a `Pending` tracked bid (which, by the registry's construction
and retry policy, has `attempts < max_retries ≤ 255`), `record_failure`
increments `attempts` by one and records the error; it transitions to
`Failed` with `Exhausted` exactly when the incremented count reaches
`max_retries`, and stays `Pending` with `Retrying(attempts)` otherwise; and
`mark_submitted` transitions to `Submitted` and clears `last_error`. -/
theorem tracked_bid_pending_transitions (b : TrackedBid) (e : String) (h : Nat)
    (hp : b.state = .Pending) (hr : b.attempts < b.max_retries)
    (hm : b.max_retries ≤ 255) :
    (b.max_retries ≤ b.attempts + 1 →
      b.record_failure e =
        ({ b with attempts := b.attempts + 1, last_error := some e, state := .Failed e }, .Exhausted)) ∧
    (b.attempts + 1 < b.max_retries →
      b.record_failure e =
        ({ b with attempts := b.attempts + 1, last_error := some e }, .Retrying (b.attempts + 1)) ∧
      (b.record_failure e).1.state = BidState.Pending) ∧
    b.mark_submitted h = { b with state := .Submitted h, last_error := none } := by
  have hsat : min (b.attempts + 1) 255 = b.attempts + 1 := by omega
  refine ⟨?_, ?_, rfl⟩
  · intro hge
    unfold TrackedBid.record_failure
    simp only [hsat]
    rw [if_pos (by omega : b.attempts + 1 ≥ b.max_retries)]
  · intro hlt
    have heq : b.record_failure e =
        ({ b with attempts := b.attempts + 1, last_error := some e }, .Retrying (b.attempts + 1)) := by
      unfold TrackedBid.record_failure
      simp only [hsat]
      rw [if_neg (by omega : ¬ b.attempts + 1 ≥ b.max_retries)]
    refine ⟨heq, ?_⟩
    rw [heq]
    exact hp

/-- C5 witness: the theorem applied to the example pending bid, whose first
failure leaves it pending with one attempt recorded. -/
theorem tracked_bid_pending_transitions_witness :
    bidEx.record_failure "boom" =
      ({ bidEx with attempts := 1, last_error := some "boom" }, .Retrying 1) :=
  ((tracked_bid_pending_transitions bidEx "boom" 7 rfl (by decide)
    (by decide)).2.1 (by decide)).1

/-- C1 counterexample: `TrackedBid::mark_submitted` is unguarded, so calling
it on a bid already in the terminal `Failed` state changes the state to
`Submitted` — the claim's method-level terminality fails. -/
theorem mark_submitted_on_failed_changes_state :
    bidFailedEx.is_complete = true ∧
    (bidFailedEx.mark_submitted 7).state = BidState.Submitted 7 ∧
    (bidFailedEx.mark_submitted 7).state ≠ bidFailedEx.state := by
  refine ⟨rfl, rfl, ?_⟩
  decide

/-- C1 (amended): the engine only reaches `record_failure`/`mark_submitted`
through the submit loop's per-bid step, which skips bids that are not
`Pending`; under any number of such steps, with any submission outcomes, a
terminal bid is left completely unchanged. -/
theorem terminal_bid_stable_under_engine (b : TrackedBid)
    (outcomes : List SubmitOutcome) (hb : b.is_complete = true) :
    outcomes.foldl (fun acc o => processBid o acc) b = b := by
  have hnp : b.is_pending = false := by
    unfold TrackedBid.is_complete at hb
    unfold TrackedBid.is_pending
    cases hs : b.state <;> simp [hs] at hb ⊢
  have hstep : ∀ o, processBid o b = b := by
    intro o
    unfold processBid
    rw [hnp]
    simp
  induction outcomes with
  | nil => rfl
  | cons o rest ih =>
      simp only [List.foldl_cons, hstep]
      exact ih

/-- C1 witness: a failed bid is unchanged by a run of engine steps. -/
theorem terminal_bid_stable_under_engine_witness :
    [SubmitOutcome.Ok 7, SubmitOutcome.Err "x"].foldl
      (fun acc o => processBid o acc) bidFailedEx = bidFailedEx :=
  terminal_bid_stable_under_engine bidFailedEx
    [SubmitOutcome.Ok 7, SubmitOutcome.Err "x"] rfl

/-! ## The C2 end-to-end scenario: contributor period ends at block 100,
auction ends at block 110, one bid whose submission succeeds immediately. -/

/-- Registry for the C2 scenario. -/
def c2Registry : BidRegistry :=
  { bids := [bidEx]
    window := { contributor_period_end_block := 100, end_block := 110 } }

/-- Engine for the C2 scenario. -/
def c2Consumer : BlockConsumer := BlockConsumer.new c2Registry

/-- Submission oracle that always succeeds with transaction hash 7. -/
def okOracle : Nat → SubmitOutcome := fun _ => .Ok 7

/-- The summary of the C2 scenario once its single bid is submitted. -/
def c2Summary : BidSummary :=
  { submitted := 1
    failed := 0
    pending := 0
    outcomes := [{ owner := 1, amount := 10, state := BidOutcomeState.Submitted 7 }] }

/-- C2 counterexample: delivering block 100 submits the bid but the engine
then enters `AwaitEnd` (110 not reached) and returns `Completion::Pending`,
not a finished completion. -/
theorem block100_returns_pending :
    (c2Consumer.handle_block okOracle 100).2 = Completion.Pending ∧
    Completion.is_finished (c2Consumer.handle_block okOracle 100).2 = false := by
  exact ⟨rfl, rfl⟩

/-- C2 (amended): block 100 submits the bid (summary becomes
submitted 1 / failed 0 / pending 0), advances the phase to `AwaitEnd`, and
returns `Pending`; the finished completion, with reason `AllBidsProcessed`
and that summary, is produced when a block ≥ end_block (110) is delivered. -/
theorem c2_end_to_end :
    (c2Consumer.handle_block okOracle 100).2 = Completion.Pending ∧
    (c2Consumer.handle_block okOracle 100).1.phase.current = Phase.AwaitEnd ∧
    (c2Consumer.handle_block okOracle 100).1.registry.summary = c2Summary ∧
    ((c2Consumer.handle_block okOracle 100).1.handle_block okOracle 110).2 =
      Completion.Finished c2Summary ShutdownReason.AllBidsProcessed := by
  exact ⟨rfl, rfl, rfl, rfl⟩

/-! ## Preflight purchase-limit check (src/validate.rs) -/

/-- The error data carried by the purchase-limit failure message of
`PreflightValidator::ensure_within_purchase_limit`: the 1-based bid index,
the offending bid's owner, the running total that breached the cap, and the
cap itself. -/
structure PurchaseLimitError where
  bid_no : Nat
  owner : Nat
  running_total : Nat
  cap : Nat
deriving Repr, DecidableEq

/-- The loop of `ensure_within_purchase_limit`, with the enumeration index
and the running total as explicit accumulators. The source's
`running_total += U256::from(bid.amount)` is a `U256` addition, so each
step wraps modulo `2^256`. -/
def purchase_limit_go (params : AuctionParams) :
    Nat → Nat → List BidParams → Except PurchaseLimitError Unit
  | _, _, [] => .ok ()
  | idx, running_total, bid :: rest =>
      let running_total := u256_wrapping_add running_total bid.amount
      if running_total > params.max_purchase_limit then
        .error
          { bid_no := idx + 1
            owner := bid.owner
            running_total := running_total
            cap := params.max_purchase_limit }
      else
        purchase_limit_go params (idx + 1) running_total rest

/-- Embeds `PreflightValidator::ensure_within_purchase_limit`: the running total
starts from `total_purchased` and falls over at the first bid pushing it
past `max_purchase_limit`. -/
def ensure_within_purchase_limit (params : AuctionParams)
    (bids : List BidParams) : Except PurchaseLimitError Unit :=
  purchase_limit_go params 0 params.total_purchased bids

/-- The `U256` running total after the bid at index `i`: `total_purchased`
with the amounts of bids `0..=i` added one by one, each addition wrapping
modulo `2^256`. -/
def running_total_at (params : AuctionParams) (bids : List BidParams)
    (i : Nat) : Nat :=
  ((bids.take (i + 1)).map BidParams.amount).foldl u256_wrapping_add
    params.total_purchased

lemma foldl_wadd_take_succ_cons (running : Nat) (b : BidParams)
    (rest : List BidParams) (j : Nat) :
    (((b :: rest).take (j + 1)).map BidParams.amount).foldl u256_wrapping_add
        running =
      ((rest.take j).map BidParams.amount).foldl u256_wrapping_add
        (u256_wrapping_add running b.amount) := by
  simp [List.take_succ_cons]

lemma purchase_limit_error_eq (a b c d a' b' c' d' : Nat)
    (h1 : a = a') (h2 : b = b') (h3 : c = c') (h4 : d = d') :
    (Except.error { bid_no := a, owner := b, running_total := c, cap := d } :
        Except PurchaseLimitError Unit) =
      .error { bid_no := a', owner := b', running_total := c', cap := d' } := by
  subst h1
  subst h2
  subst h3
  subst h4
  rfl

lemma purchase_limit_go_ok (params : AuctionParams) :
    ∀ (bids : List BidParams) (idx running : Nat),
      purchase_limit_go params idx running bids = .ok () ↔
        ∀ i < bids.length,
          ((bids.take (i + 1)).map BidParams.amount).foldl u256_wrapping_add
              running ≤
            params.max_purchase_limit := by
  intro bids
  induction bids with
  | nil =>
      intro idx running
      simp [purchase_limit_go]
  | cons b rest ih =>
      intro idx running
      unfold purchase_limit_go
      dsimp only
      split_ifs with hgt
      · constructor
        · intro h
          exact absurd h (by simp)
        · intro h
          have h0 := h 0 (by simp)
          rw [foldl_wadd_take_succ_cons] at h0
          simp only [List.take_zero, List.map_nil, List.foldl_nil] at h0
          omega
      · rw [ih (idx + 1) (u256_wrapping_add running b.amount)]
        constructor
        · intro h i hi
          cases i with
          | zero =>
              rw [foldl_wadd_take_succ_cons]
              simp only [List.take_zero, List.map_nil, List.foldl_nil]
              omega
          | succ i =>
              have hh := h i (by simpa using hi)
              rw [foldl_wadd_take_succ_cons]
              exact hh
        · intro h i hi
          have hh := h (i + 1) (by simpa using hi)
          rw [foldl_wadd_take_succ_cons] at hh
          exact hh

lemma purchase_limit_go_first_error (params : AuctionParams) :
    ∀ (bids : List BidParams) (i : Nat) (hi : i < bids.length)
      (idx running : Nat),
      (∀ j < i,
        ((bids.take (j + 1)).map BidParams.amount).foldl u256_wrapping_add
            running ≤
          params.max_purchase_limit) →
      params.max_purchase_limit <
        ((bids.take (i + 1)).map BidParams.amount).foldl u256_wrapping_add
          running →
      purchase_limit_go params idx running bids =
        .error
          { bid_no := idx + i + 1
            owner := (bids.get ⟨i, hi⟩).owner
            running_total :=
              ((bids.take (i + 1)).map BidParams.amount).foldl
                u256_wrapping_add running
            cap := params.max_purchase_limit } := by
  intro bids
  induction bids with
  | nil =>
      intro i hi
      exact absurd hi (by simp)
  | cons b rest ih =>
      intro i hi idx running hbelow hover
      unfold purchase_limit_go
      dsimp only
      cases i with
      | zero =>
          rw [foldl_wadd_take_succ_cons] at hover
          simp only [List.take_zero, List.map_nil, List.foldl_nil] at hover
          rw [if_pos
            (by omega :
              u256_wrapping_add running b.amount > params.max_purchase_limit)]
          refine purchase_limit_error_eq _ _ _ _ _ _ _ _ (by omega) rfl ?_ rfl
          rw [foldl_wadd_take_succ_cons]
          simp
      | succ i =>
          have h0 := hbelow 0 (Nat.succ_pos _)
          rw [foldl_wadd_take_succ_cons] at h0
          simp only [List.take_zero, List.map_nil, List.foldl_nil] at h0
          rw [if_neg
            (by omega :
              ¬ u256_wrapping_add running b.amount > params.max_purchase_limit)]
          have hi' : i < rest.length := by simpa using hi
          have hrec := ih i hi' (idx + 1) (u256_wrapping_add running b.amount)
            (fun j hj => by
              have hj' := hbelow (j + 1) (by omega)
              rw [foldl_wadd_take_succ_cons] at hj'
              exact hj')
            (by
              rw [foldl_wadd_take_succ_cons] at hover
              exact hover)
          rw [hrec]
          refine purchase_limit_error_eq _ _ _ _ _ _ _ _ (by omega) rfl ?_ rfl
          rw [foldl_wadd_take_succ_cons]

/-- C6 (amended): for every auction parameters and list of bids, the
purchase-limit preflight succeeds exactly when every `U256` running total
(starting from `total_purchased`, each addition wrapping modulo `2^256`)
stays within `max_purchase_limit`; and it fails at the first bid whose
running total breaches the cap, reporting that bid's 1-based index, its
owner, the (wrapped) running total, and the cap. (This holds for all bid
lists, in particular those passing the per-bid amount, price-cap and
tick-alignment checks; whenever no addition wraps the running totals are
the plain cumulative sums.) -/
theorem ensure_within_purchase_limit_spec (params : AuctionParams)
    (bids : List BidParams) :
    (ensure_within_purchase_limit params bids = .ok () ↔
      ∀ i < bids.length,
        running_total_at params bids i ≤ params.max_purchase_limit) ∧
    (∀ i, (hi : i < bids.length) →
      (∀ j < i, running_total_at params bids j ≤ params.max_purchase_limit) →
      params.max_purchase_limit < running_total_at params bids i →
      ensure_within_purchase_limit params bids =
        .error
          { bid_no := i + 1
            owner := (bids.get ⟨i, hi⟩).owner
            running_total := running_total_at params bids i
            cap := params.max_purchase_limit }) := by
  constructor
  · rw [ensure_within_purchase_limit, purchase_limit_go_ok]
    rfl
  · intro i hi hbelow hover
    rw [ensure_within_purchase_limit,
      purchase_limit_go_first_error params bids i hi 0 params.total_purchased
        hbelow hover]
    exact purchase_limit_error_eq _ _ _ _ _ _ _ _ (by omega) rfl rfl rfl

/-- Parameters for the spec's purchase-limit example: total_purchased 900,
max_purchase_limit 1000. -/
def c6Params : AuctionParams :=
  { contributor_period_end_block := 0
    max_purchase_limit := 1000
    floor_price := 0
    tick_spacing := 1
    max_bid_price := 0
    end_block := 0
    total_purchased := 900
    has_any_token := true }

/-- Bids of amounts 50 and 60 for the purchase-limit example. -/
def c6Bids : List BidParams :=
  [{ max_bid := 0, amount := 50, owner := 11 },
    { max_bid := 0, amount := 60, owner := 22 }]

/-- C6 witness: with total_purchased 900 and cap 1000, bids of amounts 50
and 60 fail at bid #2 with running total 1010. -/
theorem ensure_within_purchase_limit_spec_witness :
    ensure_within_purchase_limit c6Params c6Bids =
      .error { bid_no := 2, owner := 22, running_total := 1010, cap := 1000 } :=
  (ensure_within_purchase_limit_spec c6Params c6Bids).2 1 (by decide)
    (by decide) (by decide)

/-- Parameters at the `U256` boundary: `total_purchased = 2^256 - 1`
(a representable `U256` value) with cap 1000. -/
def c6WrapParams : AuctionParams :=
  { contributor_period_end_block := 0
    max_purchase_limit := 1000
    floor_price := 0
    tick_spacing := 1
    max_bid_price := 0
    end_block := 0
    total_purchased := 2 ^ 256 - 1
    has_any_token := true }

/-- A single bid of amount 1 that passes every per-bid preflight check. -/
def c6WrapBids : List BidParams :=
  [{ max_bid := 0, amount := 1, owner := 9 }]

/-- C6 counterexample: the bid passes the per-bid amount, price-cap and
tick-alignment checks, and the plain cumulative sum
`total_purchased + 1 = 2^256` exceeds the cap at the first bid — so the
claim requires a failure — yet the source's `U256` running total wraps to
0 and the check reports no breach. -/
theorem purchase_limit_wrap_cex :
    (∀ b ∈ c6WrapBids,
      0 < b.amount ∧ b.max_bid ≤ c6WrapParams.max_bid_price ∧
        tick_aligned c6WrapParams b.max_bid) ∧
    c6WrapParams.max_purchase_limit <
      c6WrapParams.total_purchased +
        ((c6WrapBids.take 1).map BidParams.amount).sum ∧
    ensure_within_purchase_limit c6WrapParams c6WrapBids = .ok () := by
  refine ⟨by decide, by decide, ?_⟩
  rfl

/-! ## Insertion-point resolution (src/auction.rs)

`Auction::compute_prev_tick_price` reads the on-chain tick list through the
provider; the chain is modelled, as the claim states, as a map
`ticks : Nat → Nat` from tick price to `next` pointer. The source's
unbounded `while` loop is modelled with explicit fuel. -/

/-- Embeds `k`-fold application of the `next` pointer starting from `start`. -/
def tick_iter (ticks : Nat → Nat) (start : Nat) : Nat → Nat
  | 0 => start
  | k + 1 => ticks (tick_iter ticks start k)

/-- The `while next < bid_price` loop of `compute_prev_tick_price`:
`prev` follows `next` pointers while they are below `bid_price`; `none`
models running out of fuel. -/
def tick_walk (ticks : Nat → Nat) (bid_price : Nat) : Nat → Nat → Option Nat
  | 0, _ => none
  | fuel + 1, prev =>
      if ticks prev < bid_price then tick_walk ticks bid_price fuel (ticks prev)
      else some prev

/-- Embeds `Auction::compute_prev_tick_price`: fails fatally below the floor
price (before any tick read), otherwise walks the tick list from
`floor_price`. -/
def compute_prev_tick_price (ticks : Nat → Nat) (params : AuctionParams)
    (bid_price : Nat) (fuel : Nat) : Except String Nat :=
  if bid_price < params.floor_price then
    .error "bid price below floor price"
  else
    match tick_walk ticks bid_price fuel params.floor_price with
    | some prev => .ok prev
    | none => .error "tick walk ran out of fuel"

lemma tick_iter_shift (ticks : Nat → Nat) (prev : Nat) :
    ∀ j, tick_iter ticks (ticks prev) j = tick_iter ticks prev (j + 1) := by
  intro j
  induction j with
  | zero => rfl
  | succ j ih =>
      unfold tick_iter
      rw [ih]

lemma tick_walk_spec (ticks : Nat → Nat) (bid_price : Nat) :
    ∀ (k : Nat) (fuel prev : Nat), k < fuel →
      (∀ j < k, ticks (tick_iter ticks prev j) < bid_price) →
      bid_price ≤ ticks (tick_iter ticks prev k) →
      tick_walk ticks bid_price fuel prev = some (tick_iter ticks prev k) := by
  intro k
  induction k with
  | zero =>
      intro fuel prev hf _ hstop
      cases fuel with
      | zero => exact absurd hf (by omega)
      | succ fuel =>
          unfold tick_walk
          rw [if_neg (by exact Nat.not_lt.mpr hstop)]
          rfl
  | succ k ih =>
      intro fuel prev hf hlow hstop
      cases fuel with
      | zero => exact absurd hf (by omega)
      | succ fuel =>
          unfold tick_walk
          have h0 : ticks prev < bid_price := hlow 0 (Nat.succ_pos _)
          rw [if_pos h0]
          have hres := ih fuel (ticks prev) (by omega)
            (fun j hj => by
              rw [tick_iter_shift]
              exact hlow (j + 1) (by omega))
            (by
              rw [tick_iter_shift]
              exact hstop)
          rw [hres, tick_iter_shift]

/-- C8: with the on-chain ticks modelled as a map from tick price to next
pointer, `compute_prev_tick_price` errors for `bid_price < floor_price`
without reading any tick (the result does not depend on the tick map), and
for `bid_price ≥ floor_price` it returns the tick reached from
`floor_price` by following `next` pointers while they are below
`bid_price` — the last traversed tick, whose own `next` is ≥ `bid_price`. -/
theorem compute_prev_tick_price_spec (ticks : Nat → Nat)
    (params : AuctionParams) (bid_price fuel : Nat) :
    (bid_price < params.floor_price →
      compute_prev_tick_price ticks params bid_price fuel =
        .error "bid price below floor price" ∧
      ∀ ticks2 : Nat → Nat,
        compute_prev_tick_price ticks params bid_price fuel =
          compute_prev_tick_price ticks2 params bid_price fuel) ∧
    (params.floor_price ≤ bid_price →
      ∀ k, k < fuel →
        (∀ j < k, ticks (tick_iter ticks params.floor_price j) < bid_price) →
        bid_price ≤ ticks (tick_iter ticks params.floor_price k) →
        compute_prev_tick_price ticks params bid_price fuel =
          .ok (tick_iter ticks params.floor_price k)) := by
  constructor
  · intro hlo
    constructor
    · unfold compute_prev_tick_price
      rw [if_pos hlo]
    · intro ticks2
      unfold compute_prev_tick_price
      rw [if_pos hlo, if_pos hlo]
  · intro hge k hk hlow hstop
    unfold compute_prev_tick_price
    rw [if_neg (by exact Nat.not_lt.mpr hge),
      tick_walk_spec ticks bid_price k fuel params.floor_price hk hlow hstop]

/-- Example tick map for the C8 witness: every tick points 100 above
itself. -/
def ticksEx : Nat → Nat := fun p => p + 100

/-- C8 witness: with floor 1000 and ticks stepping by 100, the insertion
point for bid price 1150 is the tick 1100. -/
theorem compute_prev_tick_price_spec_witness :
    compute_prev_tick_price ticksEx exParams 1150 10 = .ok 1100 :=
  (compute_prev_tick_price_spec ticksEx exParams 1150 10).2 (by decide) 1
    (by decide) (by decide) (by decide)

end AztecCca
